import Mathlib

/-
Verification of next-server-action-validation.

The repository exposes two functions:
  - `withValidation` (src/with-validation.ts): wraps a server action in a
    zod validation gate;
  - `isValidationError` (src/validation-error.ts): classifies a value as a
    validation-error value.
We embed the JavaScript runtime values the code manipulates as an inductive
type, translate both functions from the source, and prove the stated
properties.
-/

/-- A JavaScript runtime value, as far as the code under verification
inspects values: `undefined`, `null`, booleans, numbers (modelled as
integers; the code never does arithmetic), strings, arrays and plain
objects given by their own enumerable fields in insertion order. -/
inductive JSValue where
  | undefined : JSValue
  | null : JSValue
  | bool (b : Bool) : JSValue
  | num (n : Int) : JSValue
  | str (s : String) : JSValue
  | arr (elems : List JSValue) : JSValue
  | obj (fields : List (String × JSValue)) : JSValue

/-- JavaScript truthiness: `undefined`, `null`, `false`, `0` and the empty
string are falsy; every other value (all objects and arrays included) is
truthy. -/
def truthy : JSValue → Bool
  | JSValue.undefined => false
  | JSValue.null => false
  | JSValue.bool b => b
  | JSValue.num n => n != 0
  | JSValue.str s => s != ""
  | JSValue.arr _ => true
  | JSValue.obj _ => true

/-- First field of an object field list with the given key. -/
def lookupField : List (String × JSValue) → String → Option JSValue
  | [], _ => none
  | (k, v) :: rest, key => if k = key then some v else lookupField rest key

/-- JavaScript property access `v[key]` for a plain (non-index, non-builtin)
property name such as `isValidationError`, the only key the code reads.
Access on `null` or `undefined` raises a TypeError, modelled as `none`;
access on any other value yields the own field when present and `undefined`
otherwise (primitives and arrays have no such own field). -/
def getField : JSValue → String → Option JSValue
  | JSValue.undefined, _ => none
  | JSValue.null, _ => none
  | JSValue.bool _, _ => some JSValue.undefined
  | JSValue.num _, _ => some JSValue.undefined
  | JSValue.str _, _ => some JSValue.undefined
  | JSValue.arr _, _ => some JSValue.undefined
  | JSValue.obj fields, key => some ((lookupField fields key).getD JSValue.undefined)

/-- JavaScript strict equality `v === true`: holds exactly when `v` is the
boolean `true` (strict equality between a boolean literal and any value of
another type is `false`). -/
def strictEqTrue : JSValue → Bool
  | JSValue.bool b => b
  | _ => false

/-- Embedding of `isValidationError` (src/validation-error.ts):
`return obj && obj.isValidationError === true;`.
The JavaScript `&&` returns its left operand when it is falsy (without
evaluating the right operand) and otherwise returns the right operand,
here the boolean of the strict comparison of the `isValidationError`
field with `true`. A `none` result would mean the call raised; property
access is only reached on truthy operands. -/
def isValidationError (obj : JSValue) : Option JSValue :=
  if truthy obj then
    (getField obj "isValidationError").map (fun v => JSValue.bool (strictEqTrue v))
  else
    some obj

/-- The settled state of a JavaScript promise: resolved with a value or
rejected with a fault. The wrapper returned by `withValidation` is an
`async` function, so every invocation of it yields a promise. -/
inductive Promise where
  | resolved (v : JSValue) : Promise
  | rejected (e : JSValue) : Promise

/-- What a call to the target operation `func` does: return a plain value,
return a promise (the target may be `async`), or throw synchronously. -/
inductive FuncResult where
  | value (v : JSValue) : FuncResult
  | promise (p : Promise) : FuncResult
  | throws (e : JSValue) : FuncResult

/-- Outcome of `schema.safeParse(data)` when it returns normally: either
`success: true` carrying the validated/normalized `data`, or
`success: false` carrying `error.errors`, the ordered sequence of zod
issues (kept abstract as JavaScript values, passed through unmodified). -/
inductive SafeParseResult where
  | success (data : JSValue) : SafeParseResult
  | failure (errors : List JSValue) : SafeParseResult

/-- A call to `schema.safeParse` either returns a result or raises a fault
(zod reserves faults for malfunctions such as a malformed schema; an
ordinary mismatch is a returned `failure`). -/
inductive SafeParseCall where
  | returns (r : SafeParseResult) : SafeParseCall
  | throws (e : JSValue) : SafeParseCall

/-- A zod schema, abstracted to the one capability the code uses: its
`safeParse` behaviour on each input. -/
def ZodSchema : Type := JSValue → SafeParseCall

/-- The validation-error object literal the wrapper constructs on a failed
validation: `{ isValidationError: true, errors: zodValidationResult.error.errors }`. -/
def validationErrorValue (errors : List JSValue) : JSValue :=
  JSValue.obj [("isValidationError", JSValue.bool true), ("errors", JSValue.arr errors)]

/-- How an `async` function body that evaluates `return func(d)` settles:
a plain returned value resolves the promise, a returned promise is adopted
unmodified and unwrapped, and a synchronous throw rejects it. -/
def settle : FuncResult → Promise
  | FuncResult.value v => Promise.resolved v
  | FuncResult.promise p => p
  | FuncResult.throws e => Promise.rejected e

/-- Embedding of one invocation of the wrapper returned by
`withValidation(schema, func)` (src/with-validation.ts) on input `data`:
run `schema.safeParse(data)`; if it throws, the async body rejects with the
fault; if it reports failure, resolve with the validation-error object; if
it reports success, evaluate `func` on the validated data and settle with
its outcome. The second component of the result instruments the body with
the sequence of arguments the target `func` is invoked with, so that
claims about `func` never or exactly once being invoked are statable. -/
def withValidation (schema : ZodSchema) (func : JSValue → FuncResult)
    (data : JSValue) : Promise × List JSValue :=
  match schema data with
  | SafeParseCall.throws e => (Promise.rejected e, [])
  | SafeParseCall.returns (SafeParseResult.failure errors) =>
      (Promise.resolved (validationErrorValue errors), [])
  | SafeParseCall.returns (SafeParseResult.success d) => (settle (func d), [d])

example : isValidationError JSValue.null = some JSValue.null := rfl

example : isValidationError (JSValue.obj [("isValidationError", JSValue.bool true)]) =
    some (JSValue.bool true) := rfl

example : isValidationError (JSValue.num 7) = some (JSValue.bool false) := rfl

/-- Strict comparison with `true` holds exactly for the boolean `true`. -/
theorem strictEqTrue_iff (v : JSValue) : strictEqTrue v = true ↔ v = JSValue.bool true := by
  cases v <;> simp [strictEqTrue]

/-- On a truthy value, property access returns normally. -/
theorem getField_of_truthy (v : JSValue) (key : String) (h : truthy v = true) :
    getField v key = some ((getField v key).getD JSValue.undefined) := by
  cases v <;> simp_all [getField, truthy]

/-- C4: `isValidationError` is total and fault-free: on every input value,
including `undefined`, `null`, numbers and arrays, it returns normally
(never `none`), and the embedding is a pure function, so it has no side
effects. -/
theorem isValidationError_total (v : JSValue) : (isValidationError v).isSome = true := by
  cases v <;> simp [isValidationError, truthy, getField] <;> split <;> simp

/-- C8: `isValidationError` is a deterministic pure function of its
argument: any sequence of repeated calls on the same value yields the same
result as the first call, with no dependence on hidden state or call
history. -/
theorem isValidationError_pure (v : JSValue) (n : Nat) :
    (List.replicate n v).map isValidationError = List.replicate n (isValidationError v) := by
  induction n with
  | zero => rfl
  | succ k ih => simp [List.replicate_succ, ih]

/-- C3 counterexample: called on `null`, the function returns `null` itself
(the JavaScript `&&` yields its falsy left operand), which is not a
boolean, refuting the claim that every call returns a boolean. -/
theorem isValidationError_null_nonBoolean :
    isValidationError JSValue.null = some JSValue.null ∧
    JSValue.null ≠ JSValue.bool true ∧ JSValue.null ≠ JSValue.bool false :=
  ⟨rfl, fun h => JSValue.noConfusion h, fun h => JSValue.noConfusion h⟩

/-- C3 (amended): `isValidationError` always returns normally, and its
result is truthy exactly when the input is truthy with an
`isValidationError` field strictly equal to `true`; on a truthy input the
result is the boolean of that field comparison, while on a falsy input the
result is the input itself (falsy, but not necessarily a boolean). -/
theorem isValidationError_truthiness (v : JSValue) :
    ∃ r, isValidationError v = some r ∧
      truthy r = (truthy v &&
        strictEqTrue ((getField v "isValidationError").getD JSValue.undefined)) ∧
      (truthy v = true →
        r = JSValue.bool (strictEqTrue ((getField v "isValidationError").getD JSValue.undefined))) ∧
      (truthy v = false → r = v) := by
  by_cases ht : truthy v = true
  · refine ⟨JSValue.bool (strictEqTrue ((getField v "isValidationError").getD JSValue.undefined)),
      ?_, ?_, fun _ => rfl, fun hf => by rw [ht] at hf; exact absurd hf (by simp)⟩
    · rw [isValidationError, if_pos ht, getField_of_truthy v _ ht]
      rfl
    · rw [ht]
      simp [truthy]
  · have ht' : truthy v = false := by simpa using ht
    refine ⟨v, ?_, ?_, fun hc => absurd hc ht, fun _ => rfl⟩
    · rw [isValidationError, if_neg (by simp [ht'])]
    · rw [ht']
      simp [ht']

/-- C3 witness: the amended statement evaluated at the falsy input `0`. -/
theorem isValidationError_truthiness_witness :
    ∃ r, isValidationError (JSValue.num 0) = some r ∧
      truthy r = (truthy (JSValue.num 0) &&
        strictEqTrue ((getField (JSValue.num 0) "isValidationError").getD JSValue.undefined)) ∧
      (truthy (JSValue.num 0) = true →
        r = JSValue.bool (strictEqTrue ((getField (JSValue.num 0) "isValidationError").getD JSValue.undefined))) ∧
      (truthy (JSValue.num 0) = false → r = JSValue.num 0) := by
  have h := isValidationError_truthiness (JSValue.num 0)
  obtain ⟨r, h1, h2, h3, h4⟩ := h
  exact ⟨r, h1, h2, h3, fun hf => h4 hf⟩

/-- C5: the classification is purely structural (duck-typed): the object
literal with `isValidationError: true` and an empty `errors` array is
classified as a validation error even though nothing constructed it, and
conversely any value classified as a validation error has an
`isValidationError` field strictly equal to `true`. -/
theorem isValidationError_structural :
    isValidationError (JSValue.obj
      [("isValidationError", JSValue.bool true), ("errors", JSValue.arr [])]) =
      some (JSValue.bool true) ∧
    ∀ v, isValidationError v = some (JSValue.bool true) →
      getField v "isValidationError" = some (JSValue.bool true) := by
  refine ⟨rfl, ?_⟩
  intro v hv
  by_cases ht : truthy v = true
  · rw [isValidationError, if_pos ht, getField_of_truthy v _ ht] at hv
    rw [Option.map_some'] at hv
    have hb : strictEqTrue ((getField v "isValidationError").getD JSValue.undefined) = true := by
      injection hv with hv1
      injection hv1
    rw [getField_of_truthy v _ ht]
    rw [(strictEqTrue_iff _).mp hb]
  · rw [isValidationError, if_neg (by simp [Bool.not_eq_true] at ht; simp [ht])] at hv
    have hveq : v = JSValue.bool true := by injection hv
    rw [hveq] at ht
    exact absurd rfl ht

/-- C5 witness: the converse direction applied to the concrete object
literal. -/
theorem isValidationError_structural_witness :
    getField (JSValue.obj [("isValidationError", JSValue.bool true), ("errors", JSValue.arr [])])
      "isValidationError" = some (JSValue.bool true) :=
  isValidationError_structural.2 _ rfl

/-- C10: the predicate inspects only the `isValidationError` field: any
truthy value whose `isValidationError` field is strictly `true` is
classified as a validation error, regardless of whether it carries an
`errors` field at all. -/
theorem isValidationError_ignoresOtherFields (v : JSValue)
    (h1 : truthy v = true)
    (h2 : getField v "isValidationError" = some (JSValue.bool true)) :
    isValidationError v = some (JSValue.bool true) := by
  rw [isValidationError, if_pos h1, h2]
  rfl

/-- C10 witness: an object carrying only the tag field and no `errors`
field is classified as a validation error. -/
theorem isValidationError_ignoresOtherFields_witness :
    isValidationError (JSValue.obj [("isValidationError", JSValue.bool true)]) =
      some (JSValue.bool true) :=
  isValidationError_ignoresOtherFields _ rfl rfl

/-- C1: on an input the schema rejects, the wrapped operation never invokes
the target operation and resolves to a value whose `isValidationError`
field is strictly `true` and whose `errors` field is exactly the issue
sequence the validator reported, in order. -/
theorem withValidation_invalid (schema : ZodSchema) (func : JSValue → FuncResult)
    (data : JSValue) (errors : List JSValue)
    (h : schema data = SafeParseCall.returns (SafeParseResult.failure errors)) :
    (withValidation schema func data).snd = [] ∧
    ∃ v, (withValidation schema func data).fst = Promise.resolved v ∧
      getField v "isValidationError" = some (JSValue.bool true) ∧
      getField v "errors" = some (JSValue.arr errors) := by
  rw [withValidation, h]
  exact ⟨rfl, validationErrorValue errors, rfl, rfl, rfl⟩

/-- C1 witness: a schema that rejects every input with one issue, applied
to `null`; the target constantly returns `true` and is never called. -/
theorem withValidation_invalid_witness :
    (withValidation (fun _ => SafeParseCall.returns (SafeParseResult.failure
        [JSValue.str "issue"]))
      (fun _ => FuncResult.value (JSValue.bool true)) JSValue.null).snd = [] ∧
    ∃ v, (withValidation (fun _ => SafeParseCall.returns (SafeParseResult.failure
        [JSValue.str "issue"]))
      (fun _ => FuncResult.value (JSValue.bool true)) JSValue.null).fst = Promise.resolved v ∧
      getField v "isValidationError" = some (JSValue.bool true) ∧
      getField v "errors" = some (JSValue.arr [JSValue.str "issue"]) :=
  withValidation_invalid _ _ _ _ rfl

/-- C2: on an input the schema accepts, the wrapped operation invokes the
target operation exactly once, with the validated/normalized output of the
schema (not necessarily the raw input), and resolves to exactly what the
target returns or resolves to, unmodified and unwrapped. -/
theorem withValidation_valid (schema : ZodSchema) (func : JSValue → FuncResult)
    (data : JSValue) (d : JSValue)
    (h : schema data = SafeParseCall.returns (SafeParseResult.success d)) :
    (withValidation schema func data).snd = [d] ∧
    (withValidation schema func data).fst = settle (func d) ∧
    (∀ v, func d = FuncResult.value v →
      (withValidation schema func data).fst = Promise.resolved v) ∧
    (∀ p, func d = FuncResult.promise p →
      (withValidation schema func data).fst = p) := by
  rw [withValidation, h]
  refine ⟨rfl, rfl, ?_, ?_⟩
  · intro v hv
    show settle (func d) = Promise.resolved v
    rw [hv]
    rfl
  · intro p hp
    show settle (func d) = p
    rw [hp]
    rfl

/-- C2 witness: a schema that normalizes its input to the string `norm`;
the (synchronous) target is invoked exactly once with the normalized value
and its return value is resolved as-is. -/
theorem withValidation_valid_witness :
    (withValidation (fun _ => SafeParseCall.returns (SafeParseResult.success
        (JSValue.str "norm")))
      (fun d => FuncResult.value (JSValue.arr [d])) (JSValue.str "raw")).snd =
      [JSValue.str "norm"] ∧
    (withValidation (fun _ => SafeParseCall.returns (SafeParseResult.success
        (JSValue.str "norm")))
      (fun d => FuncResult.value (JSValue.arr [d])) (JSValue.str "raw")).fst =
      settle (FuncResult.value (JSValue.arr [JSValue.str "norm"])) ∧
    (∀ v, FuncResult.value (JSValue.arr [JSValue.str "norm"]) = FuncResult.value v →
      (withValidation (fun _ => SafeParseCall.returns (SafeParseResult.success
          (JSValue.str "norm")))
        (fun d => FuncResult.value (JSValue.arr [d])) (JSValue.str "raw")).fst =
        Promise.resolved v) ∧
    (∀ p, FuncResult.value (JSValue.arr [JSValue.str "norm"]) = FuncResult.promise p →
      (withValidation (fun _ => SafeParseCall.returns (SafeParseResult.success
          (JSValue.str "norm")))
        (fun d => FuncResult.value (JSValue.arr [d])) (JSValue.str "raw")).fst = p) :=
  withValidation_valid _ _ _ _ rfl

/-- C6: every invocation of the wrapped operation completes through the
single asynchronous channel of the async body: whatever the schema call
does, the outcome is one settled promise — resolved with the
validation-error value, settled from the target outcome (a synchronously
returned plain value still arriving as a resolved promise), or rejected
with the validator fault. -/
theorem withValidation_async (schema : ZodSchema) (func : JSValue → FuncResult)
    (data : JSValue) :
    (∃ e, schema data = SafeParseCall.throws e ∧
      (withValidation schema func data).fst = Promise.rejected e) ∨
    (∃ errors, schema data = SafeParseCall.returns (SafeParseResult.failure errors) ∧
      (withValidation schema func data).fst =
        Promise.resolved (validationErrorValue errors)) ∨
    (∃ d, schema data = SafeParseCall.returns (SafeParseResult.success d) ∧
      (withValidation schema func data).fst = settle (func d) ∧
      ∀ v, func d = FuncResult.value v →
        (withValidation schema func data).fst = Promise.resolved v) := by
  cases hs : schema data with
  | throws e =>
    exact Or.inl ⟨e, rfl, by rw [withValidation, hs]⟩
  | returns r =>
    cases r with
    | failure errors =>
      exact Or.inr (Or.inl ⟨errors, rfl, by rw [withValidation, hs]⟩)
    | success d =>
      refine Or.inr (Or.inr ⟨d, rfl, by rw [withValidation, hs], ?_⟩)
      intro v hv
      rw [withValidation, hs]
      show settle (func d) = Promise.resolved v
      rw [hv]
      rfl

/-- C6 witness: the case analysis at a schema that accepts with a
normalized value and a target that returns a plain value synchronously. -/
theorem withValidation_async_witness :
    (∃ e, (fun _ => SafeParseCall.returns (SafeParseResult.success JSValue.null) :
        ZodSchema) JSValue.null = SafeParseCall.throws e ∧
      (withValidation (fun _ => SafeParseCall.returns (SafeParseResult.success JSValue.null))
        (fun _ => FuncResult.value (JSValue.num 1)) JSValue.null).fst = Promise.rejected e) ∨
    (∃ errors, (fun _ => SafeParseCall.returns (SafeParseResult.success JSValue.null) :
        ZodSchema) JSValue.null = SafeParseCall.returns (SafeParseResult.failure errors) ∧
      (withValidation (fun _ => SafeParseCall.returns (SafeParseResult.success JSValue.null))
        (fun _ => FuncResult.value (JSValue.num 1)) JSValue.null).fst =
        Promise.resolved (validationErrorValue errors)) ∨
    (∃ d, (fun _ => SafeParseCall.returns (SafeParseResult.success JSValue.null) :
        ZodSchema) JSValue.null = SafeParseCall.returns (SafeParseResult.success d) ∧
      (withValidation (fun _ => SafeParseCall.returns (SafeParseResult.success JSValue.null))
        (fun _ => FuncResult.value (JSValue.num 1)) JSValue.null).fst =
        settle ((fun _ => FuncResult.value (JSValue.num 1) : JSValue → FuncResult) d) ∧
      ∀ v, (fun _ => FuncResult.value (JSValue.num 1) : JSValue → FuncResult) d =
          FuncResult.value v →
        (withValidation (fun _ => SafeParseCall.returns (SafeParseResult.success JSValue.null))
          (fun _ => FuncResult.value (JSValue.num 1)) JSValue.null).fst =
          Promise.resolved v) :=
  withValidation_async (fun _ => SafeParseCall.returns (SafeParseResult.success JSValue.null))
    (fun _ => FuncResult.value (JSValue.num 1)) JSValue.null

/-- C7: the wrapper defines no fault conditions of its own and does not
intercept unexpected faults: a fault raised by the validator propagates
uncaught (rejecting the call, with the target never invoked), and
conversely the call only rejects when the validator threw or the target
operation itself faulted. -/
theorem withValidation_fault_propagation (schema : ZodSchema)
    (func : JSValue → FuncResult) (data : JSValue) :
    (∀ e, schema data = SafeParseCall.throws e →
      withValidation schema func data = (Promise.rejected e, [])) ∧
    (∀ e, (withValidation schema func data).fst = Promise.rejected e →
      schema data = SafeParseCall.throws e ∨
      ∃ d, schema data = SafeParseCall.returns (SafeParseResult.success d) ∧
        (func d = FuncResult.throws e ∨
         func d = FuncResult.promise (Promise.rejected e))) := by
  constructor
  · intro e he
    rw [withValidation, he]
  · intro e he
    cases hs : schema data with
    | throws f =>
      rw [withValidation, hs] at he
      injection he with he1
      rw [he1]
      exact Or.inl rfl
    | returns r =>
      cases r with
      | failure errors =>
        rw [withValidation, hs] at he
        exact absurd he (by exact fun hc => Promise.noConfusion hc)
      | success d =>
        rw [withValidation, hs] at he
        refine Or.inr ⟨d, rfl, ?_⟩
        cases hf : func d with
        | value v =>
          have he2 : settle (func d) = Promise.rejected e := he
          rw [hf] at he2
          have he3 : Promise.resolved v = Promise.rejected e := he2
          exact absurd he3 (fun hc => Promise.noConfusion hc)
        | promise p =>
          have he2 : settle (func d) = Promise.rejected e := he
          rw [hf] at he2
          have he3 : p = Promise.rejected e := he2
          exact Or.inr (by rw [he3])
        | throws f =>
          have he2 : settle (func d) = Promise.rejected e := he
          rw [hf] at he2
          have he3 : Promise.rejected f = Promise.rejected e := he2
          injection he3 with h1
          exact Or.inl (by rw [h1])

/-- C7 witness: a validator that throws; the fault rejects the call
unchanged and the target is never invoked. -/
theorem withValidation_fault_propagation_witness :
    withValidation (fun _ => SafeParseCall.throws (JSValue.str "malformed schema"))
      (fun _ => FuncResult.value JSValue.null) JSValue.undefined =
      (Promise.rejected (JSValue.str "malformed schema"), []) :=
  (withValidation_fault_propagation _ _ _).1 _ rfl

/-- C9: round-trip of construction and classification: on any input the
schema rejects, the wrapped call resolves to the constructed
validation-error object, and applying `isValidationError` to that resolved
value yields boolean `true`. -/
theorem withValidation_roundTrip (schema : ZodSchema) (func : JSValue → FuncResult)
    (data : JSValue) (errors : List JSValue)
    (h : schema data = SafeParseCall.returns (SafeParseResult.failure errors)) :
    ∃ v, (withValidation schema func data).fst = Promise.resolved v ∧
      isValidationError v = some (JSValue.bool true) := by
  refine ⟨validationErrorValue errors, ?_, rfl⟩
  rw [withValidation, h]

/-- C9 witness: the round trip at a concrete rejecting schema. -/
theorem withValidation_roundTrip_witness :
    ∃ v, (withValidation (fun _ => SafeParseCall.returns (SafeParseResult.failure []))
      (fun _ => FuncResult.value JSValue.null) (JSValue.num 3)).fst = Promise.resolved v ∧
      isValidationError v = some (JSValue.bool true) :=
  withValidation_roundTrip _ _ _ _ rfl
